import Mathlib

/-!
Shallow embedding of `src/magic8_companion/modules/ib_client.py`
(class `IBClient`): the fallback-based contract qualification
(`qualify_underlying_with_fallback`, `qualify_option_with_fallback`) and the
ATM option-chain assembly (`get_atm_options`).

The brokerage session (`ib_async.IB`) is modelled as an oracle structure
`Session`: each session call is a function of its arguments; a call that may
raise returns `Except Unit _` (`.error` models a raised exception) or, for the
qualification calls that the source wraps in `try/except`, a `QualResult` with
a `raised` constructor.  Python floats are modelled as `ℚ` plus explicit `nan`
and `None` constructors (`PyNum`), since the source tests `str(x) == 'nan'`
and `is not None` explicitly.
-/

namespace IB

/-- A Python number-valued field: a numeric value, `float('nan')`, or `None`. -/
inductive PyNum
  | num (q : ℚ)
  | nan
  | pynone
deriving DecidableEq

/-- Python truthiness of a `PyNum`: `0` and `None` are falsy, `nan` and any
nonzero number are truthy. -/
def PyNum.truthy : PyNum → Bool
  | .num q => q != 0
  | .nan => true
  | .pynone => false

/-- `x is not None and str(x) != 'nan'` collapsed to an `Option ℚ`. -/
def PyNum.toOpt : PyNum → Option ℚ
  | .num q => some q
  | _ => none

/-- An `ib_async` `Contract` as used by the client: symbol, exchange,
trading class (`""` = unset, matching Python's falsy default `''`),
right, expiry, `conId` (`0` = unset/falsy) and strike. -/
structure Contract where
  symbol : String
  exchange : String
  tradingClass : String
  right : String
  expiry : String
  conId : ℕ
  strike : ℤ
deriving DecidableEq

/-- Outcome of one `ib.qualifyContractsAsync(c)` call: the call raised, or it
returned a (possibly empty) list of contracts. -/
inductive QualResult
  | raised
  | returned (cs : List Contract)
deriving DecidableEq

/-- The source's success test `if qualified and qualified[0].conId:`
-- a raised call or an empty list or a falsy (zero) `conId` is a failure,
anything else yields the first returned contract. -/
def qualSuccess : QualResult → Option Contract
  | .raised => none
  | .returned [] => none
  | .returned (c :: _) => if c.conId ≠ 0 then some c else none

/-- The option descriptor built at ib_client.py:157-170: an `Option(...)`
contract before qualification, with the trading class already applied. -/
structure OptDescriptor where
  symbol : String
  expiry : String
  strike : ℤ
  right : String
  exchange : String
  tradingClass : String
deriving DecidableEq

/-- Spot ticker fields read at ib_client.py:215-216. -/
structure UTicker where
  marketPrice : PyNum
  close : PyNum
deriving DecidableEq

/-- `ticker.modelGreeks` fields read at ib_client.py:265-279. -/
structure Greeks where
  impliedVol : PyNum
  gamma : PyNum
  delta : PyNum
deriving DecidableEq

/-- An option ticker as read at ib_client.py:261-295. -/
structure OTicker where
  contract : Contract
  bid : ℚ
  ask : ℚ
  impliedVolatility : PyNum
  modelGreeks : Option Greeks
deriving DecidableEq

/-- The per-option dict built at ib_client.py:281-295. -/
structure OptionRecord where
  symbol : String
  underlying_symbol : String
  conId : ℕ
  strike : ℤ
  right : String
  expiry : String
  bid : Option ℚ
  ask : Option ℚ
  implied_volatility : Option ℚ
  open_interest : ℕ
  gamma : Option ℚ
  delta : Option ℚ
  underlying_price_at_fetch : ℚ
deriving DecidableEq

/-- Failures that escape `get_atm_options`: the `ConnectionError` raised by
`_ensure_connected` (ib_client.py:25), or an exception propagating out of an
unguarded session call (`ib.reqTickersAsync` at ib_client.py:211 and 255). -/
inductive ChainError
  | connection
  | sessionRaised
deriving DecidableEq

/-- The external market-data session (`ib_async.IB`) plus the two
configuration flags the code reads, as oracles. `qualifyU v e isIdx` is
`qualifyContractsAsync` on `Index(v, e, 'USD')` (when `isIdx`) or
`Stock(v, e, 'USD')`; `qualifyO` likewise on an `Option(...)` descriptor;
`reqTicker`/`reqTickersBulk` are the two `reqTickersAsync` calls and may
raise (`.error`); `enhanceOI` is `IBOpenInterestFetcher.enhance_options_with_oi`
and may raise. `connected` models `get_ib_connection()` returning a usable
connection; `oiEnabled` models `settings.enable_oi_streaming` (and hence also
`self.oi_fetcher` being set, ib_client.py:28-29). -/
structure Session where
  qualifyU : String → String → Bool → QualResult
  qualifyO : OptDescriptor → QualResult
  reqTicker : ℕ → Except Unit (List UTicker)
  reqTickersBulk : List Contract → Except Unit (List OTicker)
  enhanceOI : List OptionRecord → List Contract → Except Unit (List OptionRecord)
  connected : Bool
  oiEnabled : Bool

/-! ### Static alias and exchange tables (ib_client.py:80-100, 131-149) -/

/-- `symbol_variations` for underlyings (ib_client.py:80-88), with the
`.get(symbol_name, [symbol_name])` default. -/
def underlyingVariations (s : String) : List String :=
  if s = "SPX" then ["SPX", "SPXW"]
  else if s = "RUT" then ["RUT"]
  else if s = "SPY" then ["SPY"]
  else if s = "QQQ" then ["QQQ"]
  else if s = "IWM" then ["IWM"]
  else if s = "VIX" then ["VIX"]
  else if s = "NDX" then ["NDX"]
  else [s]

/-- `exchange_map` for underlyings (ib_client.py:91-100), with the
`.get(sym_variant, ['SMART'])` default of ib_client.py:103. -/
def underlyingExchanges (v : String) : List String :=
  if v = "SPX" then ["CBOE", "SMART"]
  else if v = "SPXW" then ["CBOE", "SMART"]
  else if v = "RUT" then ["SMART", "CBOE", "RUSSELL"]
  else if v = "SPY" then ["SMART", "CBOE", "ARCA", "BATS"]
  else if v = "QQQ" then ["SMART", "NASDAQ", "CBOE"]
  else if v = "IWM" then ["SMART", "ARCA", "CBOE"]
  else if v = "VIX" then ["CBOE", "SMART"]
  else if v = "NDX" then ["NASDAQ", "SMART"]
  else ["SMART"]

/-- `if symbol_name in ['SPX', 'RUT', 'VIX', 'NDX']` (ib_client.py:108):
build an `Index` rather than a `Stock` contract. Keyed on the original
symbol name, not the variant. -/
def isIndexUnderlying (s : String) : Bool :=
  s = "SPX" ∨ s = "RUT" ∨ s = "VIX" ∨ s = "NDX"

/-- The ordered (alias, exchange) attempt sequence of the underlying
fallback double loop (ib_client.py:102-105): aliases outer, exchanges inner. -/
def underlyingAttempts (s : String) : List (String × String) :=
  (underlyingVariations s).flatMap fun v => (underlyingExchanges v).map fun e => (v, e)

/-- `symbol_variations` for options (ib_client.py:131-138), with the
`.get(symbol_name, [symbol_name])` default. Note `SPXW` is preferred
over `SPX`, and `VIX` has no entry. -/
def optionVariations (s : String) : List String :=
  if s = "SPX" then ["SPXW", "SPX"]
  else if s = "RUT" then ["RUT"]
  else if s = "SPY" then ["SPY"]
  else if s = "QQQ" then ["QQQ"]
  else if s = "IWM" then ["IWM"]
  else if s = "NDX" then ["NDX"]
  else [s]

/-- `exchange_map` for options (ib_client.py:141-149), with the
`.get(sym_variant, ['SMART'])` default of ib_client.py:152. -/
def optionExchanges (v : String) : List String :=
  if v = "SPX" then ["SMART", "CBOE"]
  else if v = "SPXW" then ["SMART", "CBOE"]
  else if v = "RUT" then ["SMART", "CBOE", "RUSSELL"]
  else if v = "SPY" then ["SMART", "CBOE", "ARCA", "BATS", "AMEX", "ISE"]
  else if v = "QQQ" then ["SMART", "NASDAQ", "CBOE", "ARCA"]
  else if v = "IWM" then ["SMART", "ARCA", "CBOE"]
  else if v = "NDX" then ["SMART", "NASDAQ"]
  else ["SMART"]

/-- The descriptor built at ib_client.py:157-170 for one attempt:
trading class is the caller's hint when truthy (Python `if trading_class:`,
so `""`/`None` count as absent), else `SPXW` when the variant is `SPXW`,
else unset. -/
def mkOptDescriptor (v expiry : String) (strike : ℤ) (right e tc : String) :
    OptDescriptor :=
  { symbol := v, expiry := expiry, strike := strike, right := right,
    exchange := e,
    tradingClass := if tc ≠ "" then tc else if v = "SPXW" then "SPXW" else "" }

/-- The ordered attempt sequence of the option fallback double loop
(ib_client.py:151-154): aliases outer, exchanges inner. -/
def optionAttempts (s expiry : String) (strike : ℤ) (right tc : String) :
    List OptDescriptor :=
  (optionVariations s).flatMap fun v =>
    (optionExchanges v).map fun e => mkOptDescriptor v expiry strike right e tc

/-! ### The fallback loop -/

/-- The double loop of both qualification functions, flattened over the
precomputed attempt list: try each attempt in order; the first success is
returned and stops the search, failures (raised / empty / falsy `conId`)
continue.  Also returns the list of attempts actually made, for the
attempt-count properties. -/
def runFallback (f : α → Option Contract) : List α → Option Contract × List α
  | [] => (none, [])
  | a :: rest =>
    match f a with
    | some c => (some c, [a])
    | none =>
      let r := runFallback f rest
      (r.1, a :: r.2)

/-- Outcome of one underlying attempt `(variant, exchange)` against the
session, for the original symbol `s` (which fixes Index vs Stock). -/
def underlyingOutcome (sess : Session) (s : String) (p : String × String) :
    Option Contract :=
  qualSuccess (sess.qualifyU p.1 p.2 (isIndexUnderlying s))

/-- `IBClient.qualify_underlying_with_fallback` (ib_client.py:75-124):
first success over the attempt sequence, `None` on exhaustion. -/
def qualify_underlying_with_fallback (sess : Session) (s : String) :
    Option Contract :=
  (runFallback (underlyingOutcome sess s) (underlyingAttempts s)).1

/-- The attempts `qualify_underlying_with_fallback` actually makes, in order. -/
def underlyingTrace (sess : Session) (s : String) : List (String × String) :=
  (runFallback (underlyingOutcome sess s) (underlyingAttempts s)).2

/-- Outcome of one option attempt against the session. -/
def optionOutcome (sess : Session) (d : OptDescriptor) : Option Contract :=
  qualSuccess (sess.qualifyO d)

/-- `IBClient.qualify_option_with_fallback` (ib_client.py:126-184):
first success over the attempt sequence, `None` on exhaustion. -/
def qualify_option_with_fallback (sess : Session) (s expiry : String)
    (strike : ℤ) (right tc : String) : Option Contract :=
  (runFallback (optionOutcome sess) (optionAttempts s expiry strike right tc)).1

/-- The attempts `qualify_option_with_fallback` actually makes, in order. -/
def optionTrace (sess : Session) (s expiry : String) (strike : ℤ)
    (right tc : String) : List OptDescriptor :=
  (runFallback (optionOutcome sess) (optionAttempts s expiry strike right tc)).2

/-! ### ATM chain assembly (`get_atm_options`, ib_client.py:186-316) -/

/-- Python's built-in `round` to an integer: round half to even. -/
def pyRound (q : ℚ) : ℤ :=
  if q - ⌊q⌋ < 1/2 then ⌊q⌋
  else if 1/2 < q - ⌊q⌋ then ⌊q⌋ + 1
  else if Even ⌊q⌋ then ⌊q⌋ else ⌊q⌋ + 1

/-- Spot-price resolution from the underlying ticker response
(ib_client.py:214-222): take `marketPrice()` when truthy, else `close`;
substitute the placeholder `5000` when the response is empty, the chosen
value is falsy, non-positive, `nan`, or `None`. -/
def resolveSpot (ts : List UTicker) : ℚ :=
  match ts with
  | [] => 5000
  | t :: _ =>
    if t.marketPrice.truthy || t.close.truthy then
      let sp := if t.marketPrice.truthy then t.marketPrice else t.close
      match sp with
      | .num q => if q ≤ 0 then 5000 else q
      | _ => 5000
    else 5000

/-- ATM strike selection (ib_client.py:224-230): round to the nearest 5 for
`SPX`/`SPXW`/`NDX`, to the nearest 1 for `SPY`, to the nearest 5 otherwise. -/
def selectAtmStrike (symbol_name : String) (spot : ℚ) : ℤ :=
  if symbol_name = "SPX" ∨ symbol_name = "SPXW" ∨ symbol_name = "NDX" then
    pyRound (spot / 5) * 5
  else if symbol_name = "SPY" then pyRound spot
  else pyRound (spot / 5) * 5

/-- `strike_increment` (ib_client.py:233). -/
def strikeIncrement (symbol_name : String) : ℤ :=
  if symbol_name = "SPX" ∨ symbol_name = "SPXW" ∨ symbol_name = "RUT" ∨
      symbol_name = "NDX" then 5
  else 1

/-- The strike ladder (ib_client.py:235-236):
`[atm_strike + i * strike_increment for i in range(-sides, sides + 1)]`. -/
def strikesToCheck (atm incr : ℤ) (sides : ℕ) : List ℤ :=
  (List.range (2 * sides + 1)).map fun i : ℕ => atm + ((i : ℤ) - (sides : ℤ)) * incr

/-- `num_strikes_each_side` (ib_client.py:234). -/
def numStrikesEachSide : ℕ := 20

/-- Implied volatility selection (ib_client.py:264-268): prefer
`modelGreeks.impliedVol` when present, numeric and not `nan`, else fall back
to `ticker.impliedVolatility` under the same test. -/
def recordIV (t : OTicker) : Option ℚ :=
  match t.modelGreeks with
  | some g =>
    match g.impliedVol.toOpt with
    | some q => some q
    | none => t.impliedVolatility.toOpt
  | none => t.impliedVolatility.toOpt

/-- Gamma extraction (ib_client.py:273-277). -/
def recordGamma (t : OTicker) : Option ℚ :=
  match t.modelGreeks with
  | some g => g.gamma.toOpt
  | none => none

/-- Delta extraction (ib_client.py:273-279). -/
def recordDelta (t : OTicker) : Option ℚ :=
  match t.modelGreeks with
  | some g => g.delta.toOpt
  | none => none

/-- One `option_data` dict (ib_client.py:281-295): `-1` bid/ask sentinels map
to `None`, `open_interest` starts at `0`. -/
def mkRecord (symbol_name : String) (spot : ℚ) (t : OTicker) : OptionRecord :=
  { symbol := symbol_name
    underlying_symbol := t.contract.symbol
    conId := t.contract.conId
    strike := t.contract.strike
    right := t.contract.right
    expiry := t.contract.expiry
    bid := if t.bid ≠ -1 then some t.bid else none
    ask := if t.ask ≠ -1 then some t.ask else none
    implied_volatility := recordIV t
    open_interest := 0
    gamma := recordGamma t
    delta := recordDelta t
    underlying_price_at_fetch := spot }

/-- The open-interest enrichment step (ib_client.py:300-312): call
`enhance_options_with_oi` only when streaming is enabled and the symbol
produced records; on a raised enrichment call keep the unenriched records. -/
def applyEnrichment (sess : Session) (recs : List OptionRecord)
    (contracts : List Contract) : List OptionRecord :=
  if sess.oiEnabled && !recs.isEmpty then
    match sess.enhanceOI recs contracts with
    | .ok r => r
    | .error _ => recs
  else recs

/-- The body of the per-symbol loop of `get_atm_options`
(ib_client.py:202-314).  `.ok []` models `continue` (the symbol contributes
nothing); `.error .sessionRaised` models an exception raised by one of the
two unguarded `ib.reqTickersAsync` calls, which propagates out of the whole
function. -/
def processSymbol (sess : Session) (expiry_date symbol_name : String) :
    Except ChainError (List OptionRecord) :=
  match qualify_underlying_with_fallback sess symbol_name with
  | none => .ok []
  | some uc =>
    match sess.reqTicker uc.conId with
    | .error _ => .error .sessionRaised
    | .ok ts =>
      let spot := resolveSpot ts
      let atm := selectAtmStrike symbol_name spot
      let incr := strikeIncrement symbol_name
      let strikes := strikesToCheck atm incr numStrikesEachSide
      let qualified := strikes.flatMap fun k =>
        (["C", "P"]).filterMap fun r =>
          qualify_option_with_fallback sess symbol_name expiry_date k r
            uc.tradingClass
      if qualified.isEmpty then .ok []
      else
        match sess.reqTickersBulk qualified with
        | .error _ => .error .sessionRaised
        | .ok tickers =>
          let recs := tickers.map (mkRecord symbol_name spot)
          let contracts := tickers.map OTicker.contract
          .ok (applyEnrichment sess recs contracts)

/-- The `for symbol_name in symbols:` loop of `get_atm_options`
(ib_client.py:202-314), accumulating `options_data.extend(...)`; an exception
from an unguarded session call aborts the loop and propagates. -/
def chainLoop (sess : Session) (expiry_date : String) :
    List String → Except ChainError (List OptionRecord)
  | [] => .ok []
  | symbol_name :: rest =>
    match processSymbol sess expiry_date symbol_name with
    | .error e => .error e
    | .ok recs =>
      match chainLoop sess expiry_date rest with
      | .error e => .error e
      | .ok more => .ok (recs ++ more)

/-- `IBClient.get_atm_options` (ib_client.py:186-316).  `today` is
`datetime.now().strftime('%Y%m%d')` (ib_client.py:200), passed in as the
environment's current date; `days_to_expiry` is the function's second
parameter, which the body never reads. -/
def get_atm_options (sess : Session) (symbols : List String)
    (days_to_expiry : ℤ) (today : String) :
    Except ChainError (List OptionRecord) :=
  if !sess.connected then .error .connection
  else
    let expiry_date := today
    chainLoop sess expiry_date symbols

/-! ### Generic facts about the fallback loop -/

theorem runFallback_all_fail (f : α → Option Contract) (l : List α)
    (h : ∀ a ∈ l, f a = none) : runFallback f l = (none, l) := by
  induction l with
  | nil => rfl
  | cons a rest ih =>
    have ha := h a (List.mem_cons_self a rest)
    have hrest := ih fun b hb => h b (List.mem_cons_of_mem a hb)
    simp [runFallback, ha, hrest]

theorem runFallback_first_success (f : α → Option Contract) (c : Contract) :
    ∀ (l : List α) (n : ℕ) (hn : n < l.length),
      (∀ a ∈ l.take n, f a = none) → f (l.get ⟨n, hn⟩) = some c →
      runFallback f l = (some c, l.take (n + 1)) := by
  intro l
  induction l with
  | nil => intro n hn; simp at hn
  | cons a rest ih =>
    intro n hn hfail hsucc
    cases n with
    | zero =>
      simp only [List.get] at hsucc
      simp [runFallback, hsucc]
    | succ m =>
      have ha : f a = none := hfail a (by simp)
      have hm : m < rest.length := by simpa using hn
      have hfail' : ∀ b ∈ rest.take m, f b = none := by
        intro b hb
        exact hfail b (by simp [hb])
      have hsucc' : f (rest.get ⟨m, hm⟩) = some c := by
        simpa using hsucc
      have := ih m hm hfail' hsucc'
      simp [runFallback, ha, this]

theorem runFallback_some_mem (f : α → Option Contract) (c : Contract) :
    ∀ l : List α, (runFallback f l).1 = some c → ∃ a ∈ l, f a = some c := by
  intro l
  induction l with
  | nil => intro h; simp [runFallback] at h
  | cons a rest ih =>
    intro h
    cases hfa : f a with
    | some c0 =>
      refine ⟨a, by simp, ?_⟩
      rw [hfa]
      simp [runFallback, hfa] at h
      rw [h]
    | none =>
      simp [runFallback, hfa] at h
      obtain ⟨b, hb, hfb⟩ := ih h
      exact ⟨b, by simp [hb], hfb⟩

/-! ### Facts about the alias and exchange tables -/

theorem underlyingVariations_of_ne (s : String) (h : s ≠ "SPX") :
    underlyingVariations s = [s] := by
  unfold underlyingVariations
  split_ifs <;> simp_all

theorem optionVariations_of_ne (s : String) (h : s ≠ "SPX") :
    optionVariations s = [s] := by
  unfold optionVariations
  split_ifs <;> simp_all

theorem underlyingAttempts_length (s : String) :
    (underlyingAttempts s).length =
      (underlyingVariations s).length *
        (underlyingExchanges (underlyingVariations s).headI).length := by
  by_cases h : s = "SPX"
  · subst h; decide
  · simp [underlyingAttempts, underlyingVariations_of_ne s h]

theorem optionAttempts_length (s expiry : String) (strike : ℤ) (right tc : String) :
    (optionAttempts s expiry strike right tc).length =
      (optionVariations s).length *
        (optionExchanges (optionVariations s).headI).length := by
  by_cases h : s = "SPX"
  · subst h; simp [optionAttempts, optionVariations, optionExchanges]
  · simp [optionAttempts, optionVariations_of_ne s h]

/-! ### C1 -/

/-- C1: for every canonical symbol, `qualify_underlying_with_fallback` tries
the alias-exchange combinations in exactly the declared priority order
(aliases outer, exchanges inner, i.e. the order of `underlyingAttempts`) and
returns the first attempt yielding a valid, non-empty contract id, attempting
nothing after that success: if the attempts before index `n` all fail and
attempt `n` succeeds with contract `c`, the function returns `c` and the
attempts actually made are exactly the first `n + 1` entries of the declared
order. -/
theorem qualify_underlying_first_success (sess : Session) (s : String)
    (n : ℕ) (c : Contract) (hn : n < (underlyingAttempts s).length)
    (hfail : ∀ p ∈ (underlyingAttempts s).take n, underlyingOutcome sess s p = none)
    (hsucc : underlyingOutcome sess s ((underlyingAttempts s).get ⟨n, hn⟩) = some c) :
    qualify_underlying_with_fallback sess s = some c ∧
    underlyingTrace sess s = (underlyingAttempts s).take (n + 1) := by
  have h := runFallback_first_success (underlyingOutcome sess s) c
    (underlyingAttempts s) n hn hfail hsucc
  unfold qualify_underlying_with_fallback underlyingTrace
  rw [h]
  exact ⟨rfl, rfl⟩

/-- Session used in the C1 witness: qualification of `SPX` raises on `CBOE`
and succeeds on `SMART`. -/
def w1Session : Session :=
  { qualifyU := fun v e _ =>
      if v = "SPX" && e = "SMART" then
        .returned [{ symbol := "SPX", exchange := "SMART", tradingClass := "",
                     right := "", expiry := "", conId := 7, strike := 0 }]
      else .raised
    qualifyO := fun _ => .raised
    reqTicker := fun _ => .error ()
    reqTickersBulk := fun _ => .error ()
    enhanceOI := fun r _ => .ok r
    connected := true
    oiEnabled := false }

/-- C1 witness: with a session failing the first combination
`("SPX", "CBOE")` and succeeding on the second `("SPX", "SMART")`, exactly
the first two attempts are made and the second one's contract is returned. -/
theorem qualify_underlying_first_success_witness :
    qualify_underlying_with_fallback w1Session "SPX" =
      some { symbol := "SPX", exchange := "SMART", tradingClass := "",
             right := "", expiry := "", conId := 7, strike := 0 } ∧
    underlyingTrace w1Session "SPX" = [("SPX", "CBOE"), ("SPX", "SMART")] := by
  have h := qualify_underlying_first_success w1Session "SPX" 1
    { symbol := "SPX", exchange := "SMART", tradingClass := "", right := "",
      expiry := "", conId := 7, strike := 0 }
    (by decide) (by decide) (by decide)
  exact ⟨h.1, h.2.trans (by decide)⟩

/-! ### C2 -/

/-- C2: neither qualification function escalates an individual attempt
failure (every attempt outcome, including a raised `qualifyContractsAsync`
call, is modelled inside the total functions' `Option` result); when the
session fails every combination, each function makes exactly
|aliases| × |exchanges| attempts — the whole declared attempt sequence — and
returns `none` (NotFound). -/
theorem qualify_exhaustion (sess : Session) (s expiry : String) (strike : ℤ)
    (right tc : String)
    (hU : ∀ p ∈ underlyingAttempts s, underlyingOutcome sess s p = none)
    (hO : ∀ d ∈ optionAttempts s expiry strike right tc, optionOutcome sess d = none) :
    qualify_underlying_with_fallback sess s = none ∧
    underlyingTrace sess s = underlyingAttempts s ∧
    (underlyingAttempts s).length =
      (underlyingVariations s).length *
        (underlyingExchanges (underlyingVariations s).headI).length ∧
    qualify_option_with_fallback sess s expiry strike right tc = none ∧
    optionTrace sess s expiry strike right tc = optionAttempts s expiry strike right tc ∧
    (optionAttempts s expiry strike right tc).length =
      (optionVariations s).length *
        (optionExchanges (optionVariations s).headI).length := by
  have h1 := runFallback_all_fail (underlyingOutcome sess s) (underlyingAttempts s) hU
  have h2 := runFallback_all_fail (optionOutcome sess) (optionAttempts s expiry strike right tc) hO
  unfold qualify_underlying_with_fallback underlyingTrace
    qualify_option_with_fallback optionTrace
  rw [h1, h2]
  exact ⟨rfl, rfl, underlyingAttempts_length s, rfl, rfl,
    optionAttempts_length s expiry strike right tc⟩

/-- Session used in the C2 witness: every qualification attempt raises. -/
def w2Session : Session :=
  { qualifyU := fun _ _ _ => .raised
    qualifyO := fun _ => .raised
    reqTicker := fun _ => .error ()
    reqTickersBulk := fun _ => .error ()
    enhanceOI := fun r _ => .ok r
    connected := true
    oiEnabled := false }

/-- C2 witness: against an always-failing session, qualifying `SPX` (and an
`SPX` option) makes all 2 × 2 = 4 declared attempts and returns `none`. -/
theorem qualify_exhaustion_witness :
    qualify_underlying_with_fallback w2Session "SPX" = none ∧
    underlyingTrace w2Session "SPX" = underlyingAttempts "SPX" ∧
    (underlyingAttempts "SPX").length =
      (underlyingVariations "SPX").length *
        (underlyingExchanges (underlyingVariations "SPX").headI).length ∧
    qualify_option_with_fallback w2Session "SPX" "20250101" 5000 "C" "" = none ∧
    optionTrace w2Session "SPX" "20250101" 5000 "C" "" =
      optionAttempts "SPX" "20250101" 5000 "C" "" ∧
    (optionAttempts "SPX" "20250101" 5000 "C" "").length =
      (optionVariations "SPX").length *
        (optionExchanges (optionVariations "SPX").headI).length :=
  qualify_exhaustion w2Session "SPX" "20250101" 5000 "C" ""
    (by decide) (by decide)

/-! ### C5 -/

/-- C5: for every `atm_strike`, positive increment and sides count, the
strike-ladder comprehension produces exactly `2*sides+1` strikes, the `i`-th
being `atm_strike + (i - sides) * increment` (so constant step = increment,
centered: entry `sides` is `atm_strike`), in strictly ascending order; in
particular the ladder for `(5000, 5, sides := 2)` is
`[4990, 4995, 5000, 5005, 5010]`. -/
theorem build_ladder_spec (atm incr : ℤ) (sides : ℕ) (h : 0 < incr) :
    (strikesToCheck atm incr sides).length = 2 * sides + 1 ∧
    (∀ i, i < 2 * sides + 1 →
      (strikesToCheck atm incr sides)[i]? =
        some (atm + ((i : ℤ) - (sides : ℤ)) * incr)) ∧
    (strikesToCheck atm incr sides)[sides]? = some atm ∧
    List.Pairwise (· < ·) (strikesToCheck atm incr sides) ∧
    strikesToCheck 5000 5 2 = [4990, 4995, 5000, 5005, 5010] := by
  have hget : ∀ i, i < 2 * sides + 1 →
      (strikesToCheck atm incr sides)[i]? =
        some (atm + ((i : ℤ) - (sides : ℤ)) * incr) := by
    intro i hi
    simp only [strikesToCheck, List.getElem?_map, List.getElem?_range hi,
      Option.map_some']
  have hmono : ∀ a b : ℕ, a < b →
      atm + ((a : ℤ) - (sides : ℤ)) * incr < atm + ((b : ℤ) - (sides : ℤ)) * incr := by
    intro a b hab
    have hab' : (a : ℤ) < (b : ℤ) := by exact_mod_cast hab
    have := mul_lt_mul_of_pos_right
      (show (a : ℤ) - (sides : ℤ) < (b : ℤ) - (sides : ℤ) by linarith) h
    linarith
  refine ⟨?_, hget, ?_, ?_, by decide⟩
  · simp only [strikesToCheck, List.length_map, List.length_range]
  · have := hget sides (by omega)
    simpa using this
  · exact List.Pairwise.map _ (fun a b hab => hmono a b hab)
      (List.pairwise_lt_range (2 * sides + 1))

/-- C5 witness: the ladder properties at `(5000, 5, sides := 2)`. -/
theorem build_ladder_spec_witness :
    (strikesToCheck 5000 5 2).length = 2 * 2 + 1 ∧
    (strikesToCheck 5000 5 2)[2]? = some 5000 ∧
    List.Pairwise (· < ·) (strikesToCheck 5000 5 2) ∧
    strikesToCheck 5000 5 2 = [4990, 4995, 5000, 5005, 5010] :=
  ⟨(build_ladder_spec 5000 5 2 (by decide)).1,
   (build_ladder_spec 5000 5 2 (by decide)).2.2.1,
   (build_ladder_spec 5000 5 2 (by decide)).2.2.2.1,
   (build_ladder_spec 5000 5 2 (by decide)).2.2.2.2⟩

/-! ### C6 -/

/-- Python's `round` lands within half a unit of its argument. -/
theorem pyRound_abs_sub_le (q : ℚ) : |((pyRound q : ℤ) : ℚ) - q| ≤ 1 / 2 := by
  have h0 : ((⌊q⌋ : ℤ) : ℚ) ≤ q := Int.floor_le q
  have h1 : q < ((⌊q⌋ : ℤ) : ℚ) + 1 := Int.lt_floor_add_one q
  unfold pyRound
  split_ifs with ha hb hc <;>
    (rw [abs_le]; constructor <;> push_cast at * <;> linarith)

/-- C6: for the index-class symbols using the 5-point increment
(`SPX`/`SPXW`/`NDX`), the selected ATM strike is a multiple of 5 lying within
5/2 of the spot price — hence at least as close to the spot as every other
multiple of 5 (nearest-multiple rounding) — and concretely a spot of 5003
yields strike 5005 while a spot of 5002 yields strike 5000. -/
theorem atm_strike_nearest (symbol_name : String) (spot : ℚ)
    (h : symbol_name = "SPX" ∨ symbol_name = "SPXW" ∨ symbol_name = "NDX") :
    (5 : ℤ) ∣ selectAtmStrike symbol_name spot ∧
    |((selectAtmStrike symbol_name spot : ℤ) : ℚ) - spot| ≤ 5 / 2 ∧
    (∀ m : ℤ, (5 : ℤ) ∣ m →
      |((selectAtmStrike symbol_name spot : ℤ) : ℚ) - spot| ≤ |(m : ℚ) - spot|) ∧
    selectAtmStrike symbol_name 5003 = 5005 ∧
    selectAtmStrike symbol_name 5002 = 5000 := by
  have hsel : ∀ sp : ℚ, selectAtmStrike symbol_name sp = pyRound (sp / 5) * 5 := by
    intro sp
    rcases h with h | h | h <;> subst h <;> simp [selectAtmStrike]
  have hdvd : (5 : ℤ) ∣ pyRound (spot / 5) * 5 := dvd_mul_left 5 (pyRound (spot / 5))
  have hdist : |((pyRound (spot / 5) * 5 : ℤ) : ℚ) - spot| ≤ 5 / 2 := by
    have hp := pyRound_abs_sub_le (spot / 5)
    have heq : ((pyRound (spot / 5) * 5 : ℤ) : ℚ) - spot =
        5 * (((pyRound (spot / 5) : ℤ) : ℚ) - spot / 5) := by
      push_cast
      ring
    rw [heq, abs_mul, abs_of_nonneg (by norm_num : (0 : ℚ) ≤ 5)]
    linarith
  refine ⟨by rw [hsel]; exact hdvd, by rw [hsel]; exact hdist, ?_, ?_, ?_⟩
  · intro m hm
    rw [hsel]
    by_cases he : m = pyRound (spot / 5) * 5
    · subst he
      exact le_refl _
    · have h5 : (5 : ℤ) ∣ m - pyRound (spot / 5) * 5 := hm.sub hdvd
      have hne : m - pyRound (spot / 5) * 5 ≠ 0 := sub_ne_zero.mpr he
      have habs : (5 : ℤ) ≤ |m - pyRound (spot / 5) * 5| :=
        Int.le_of_dvd (abs_pos.mpr hne) ((dvd_abs _ _).mpr h5)
      have hq : (5 : ℚ) ≤ |(m : ℚ) - ((pyRound (spot / 5) * 5 : ℤ) : ℚ)| := by
        exact_mod_cast habs
      have htri : |(m : ℚ) - ((pyRound (spot / 5) * 5 : ℤ) : ℚ)| ≤
          |(m : ℚ) - spot| + |spot - ((pyRound (spot / 5) * 5 : ℤ) : ℚ)| :=
        abs_sub_le _ _ _
      have hcomm : |spot - ((pyRound (spot / 5) * 5 : ℤ) : ℚ)| =
          |((pyRound (spot / 5) * 5 : ℤ) : ℚ) - spot| := abs_sub_comm _ _
      linarith
  · rw [hsel 5003]
    with_unfolding_all rfl
  · rw [hsel 5002]
    with_unfolding_all rfl

/-- C6 witness: the nearest-multiple theorem instantiated at the claim's
concrete spots, including minimality against the competing multiple 5000. -/
theorem atm_strike_nearest_witness :
    selectAtmStrike "SPX" 5003 = 5005 ∧ selectAtmStrike "NDX" 5002 = 5000 ∧
    |((selectAtmStrike "SPX" 5003 : ℤ) : ℚ) - 5003| ≤ |(((5000 : ℤ) : ℚ)) - 5003| :=
  ⟨(atm_strike_nearest "SPX" 5003 (Or.inl rfl)).2.2.2.1,
   (atm_strike_nearest "NDX" 5002 (Or.inr (Or.inr rfl))).2.2.2.2,
   (atm_strike_nearest "SPX" 5003 (Or.inl rfl)).2.2.1 5000 (by decide)⟩

/-! ### C10 -/

/-- C10: the `days_to_expiry` parameter of `get_atm_options` has no effect on
the result: for the same session, symbols and current date, any two values
produce identical output (the expiry used is always the current date,
ib_client.py:198-200, and the parameter is never read). -/
theorem days_to_expiry_unused (sess : Session) (symbols : List String)
    (d1 d2 : ℤ) (today : String) :
    get_atm_options sess symbols d1 today = get_atm_options sess symbols d2 today :=
  rfl

/-! ### C4 -/

theorem chainLoop_skip (sess : Session) (expiry s : String)
    (h : qualify_underlying_with_fallback sess s = none) :
    ∀ pre post : List String,
      chainLoop sess expiry (pre ++ s :: post) = chainLoop sess expiry (pre ++ post) := by
  have hps : processSymbol sess expiry s = .ok [] := by
    unfold processSymbol
    rw [h]
  intro pre post
  induction pre with
  | nil =>
    show chainLoop sess expiry (s :: post) = chainLoop sess expiry post
    cases hcp : chainLoop sess expiry post <;> simp [chainLoop, hps, hcp]
  | cons a rest ih =>
    show chainLoop sess expiry (a :: (rest ++ s :: post)) =
      chainLoop sess expiry (a :: (rest ++ post))
    unfold chainLoop
    rw [ih]

/-- C4: a symbol whose underlying never qualifies contributes zero records
and does not abort the batch: dropping it from the symbol list leaves the
result of `get_atm_options` unchanged, wherever it occurs in the batch. -/
theorem unqualified_symbol_skipped (sess : Session) (pre post : List String)
    (s : String) (d : ℤ) (today : String)
    (h : qualify_underlying_with_fallback sess s = none) :
    get_atm_options sess (pre ++ s :: post) d today =
      get_atm_options sess (pre ++ post) d today := by
  unfold get_atm_options
  cases sess.connected
  · rfl
  · exact chainLoop_skip sess today s h pre post

/-- Session for the C4 witness: the underlying `SPX` qualifies on the first
attempt, `FOO` never does; one option strike qualifies. -/
def w4Session : Session :=
  { qualifyU := fun v _ _ =>
      if v = "SPX" then
        .returned [{ symbol := "SPX", exchange := "CBOE", tradingClass := "",
                     right := "", expiry := "", conId := 1, strike := 0 }]
      else .raised
    qualifyO := fun d =>
      if d.symbol = "SPXW" && d.strike = 5000 && d.right = "C" then
        .returned [{ symbol := "SPXW", exchange := d.exchange,
                     tradingClass := "SPXW", right := "C", expiry := d.expiry,
                     conId := 10, strike := 5000 }]
      else .raised
    reqTicker := fun _ => .ok [{ marketPrice := .num 5000, close := .pynone }]
    reqTickersBulk := fun cs => .ok (cs.map fun c =>
      { contract := c, bid := -1, ask := -1, impliedVolatility := .pynone,
        modelGreeks := none })
    enhanceOI := fun r _ => .ok r
    connected := true
    oiEnabled := false }

/-- C4 witness: `FOO` never qualifies, so the batch `["SPX", "FOO"]` gives
the same result as `["SPX"]` — and that result is a non-empty record list,
so the other symbol still produced its records. -/
theorem unqualified_symbol_skipped_witness :
    get_atm_options w4Session ["SPX", "FOO"] 0 "20250101" =
      get_atm_options w4Session ["SPX"] 0 "20250101" ∧
    (get_atm_options w4Session ["SPX"] 0 "20250101").map (fun l => l.length) =
      .ok 1 :=
  ⟨unqualified_symbol_skipped w4Session ["SPX"] [] "FOO" 0 "20250101" (by decide),
   by with_unfolding_all rfl⟩

/-! ### C8 -/

/-- C8: when open-interest enrichment is enabled but the enrichment call
fails (raises), the enrichment step returns the symbol's just-built records
unchanged — every record still has `open_interest = 0` (the value set at
construction, ib_client.py:271) and none is dropped. -/
theorem enrichment_failure_keeps_records (sess : Session) (symbol_name : String)
    (spot : ℚ) (ts : List OTicker) (he : sess.oiEnabled = true)
    (h : sess.enhanceOI (ts.map (mkRecord symbol_name spot)) (ts.map OTicker.contract)
      = .error ()) :
    applyEnrichment sess (ts.map (mkRecord symbol_name spot)) (ts.map OTicker.contract)
      = ts.map (mkRecord symbol_name spot) ∧
    (∀ r ∈ ts.map (mkRecord symbol_name spot), r.open_interest = 0) ∧
    (ts.map (mkRecord symbol_name spot)).length = ts.length := by
  refine ⟨?_, ?_, List.length_map _ _⟩
  · by_cases hemp : (ts.map (mkRecord symbol_name spot)).isEmpty
    · simp [applyEnrichment, hemp]
    · simp [applyEnrichment, he, hemp, h]
  · intro r hr
    simp only [List.mem_map] at hr
    obtain ⟨t, _, rfl⟩ := hr
    rfl

/-- Session for the C8 witness: enrichment is enabled and always raises. -/
def w8Session : Session :=
  { qualifyU := fun _ _ _ => .raised
    qualifyO := fun _ => .raised
    reqTicker := fun _ => .error ()
    reqTickersBulk := fun _ => .error ()
    enhanceOI := fun _ _ => .error ()
    connected := true
    oiEnabled := true }

/-- An option ticker used by the C8 witness. -/
def w8Ticker : OTicker :=
  { contract := { symbol := "SPXW", exchange := "SMART", tradingClass := "SPXW",
                  right := "C", expiry := "20250101", conId := 10, strike := 5000 }
    bid := 1
    ask := 2
    impliedVolatility := .pynone
    modelGreeks := none }

/-- C8 witness: with an always-raising enricher, a one-ticker batch keeps its
single record with `open_interest = 0`. -/
theorem enrichment_failure_keeps_records_witness :
    applyEnrichment w8Session ([w8Ticker].map (mkRecord "SPX" 5000))
        ([w8Ticker].map OTicker.contract) = [w8Ticker].map (mkRecord "SPX" 5000) ∧
    (∀ r ∈ [w8Ticker].map (mkRecord "SPX" 5000), r.open_interest = 0) ∧
    ([w8Ticker].map (mkRecord "SPX" 5000)).length = [w8Ticker].length :=
  enrichment_failure_keeps_records w8Session "SPX" 5000 [w8Ticker] rfl rfl

/-! ### C3 -/

/-- Session for the C3 counterexample: connected, the underlying qualifies
on the first attempt, but the spot-quote request raises. -/
def c3Session : Session :=
  { qualifyU := fun v _ _ =>
      if v = "SPX" then
        .returned [{ symbol := "SPX", exchange := "CBOE", tradingClass := "",
                     right := "", expiry := "", conId := 1, strike := 0 }]
      else .raised
    qualifyO := fun _ => .raised
    reqTicker := fun _ => .error ()
    reqTickersBulk := fun _ => .error ()
    enhanceOI := fun r _ => .ok r
    connected := true
    oiEnabled := false }

/-- C3 counterexample: a raised spot-quote request (the `reqTickersAsync`
call at ib_client.py:211 sits in no try/except) escapes `get_atm_options`
even though the session connection itself was usable — refuting the claim
that spot-quote and bulk-quote request failures are absorbed locally and
only a connection-level failure escalates. -/
theorem quote_request_exception_escapes :
    get_atm_options c3Session ["SPX"] 0 "20250101" =
      Except.error ChainError.sessionRaised ∧
    ChainError.sessionRaised ≠ ChainError.connection :=
  ⟨by with_unfolding_all rfl, by decide⟩

/-- C3 amended: `get_atm_options` escalates only the connection failure and
exceptions raised by the two unguarded `reqTickersAsync` quote requests;
given a usable connection and non-raising quote requests it returns a
result for every behaviour of the qualification and enrichment oracles —
every failure below that level is absorbed locally. -/
theorem chain_absorbs_sub_symbol_failures (sess : Session)
    (symbols : List String) (d : ℤ) (today : String)
    (hc : sess.connected = true)
    (hT : ∀ n, (sess.reqTicker n).isOk = true)
    (hB : ∀ cs, (sess.reqTickersBulk cs).isOk = true) :
    (get_atm_options sess symbols d today).isOk = true := by
  unfold get_atm_options
  rw [hc]
  show (chainLoop sess today symbols).isOk = true
  induction symbols with
  | nil => rfl
  | cons s rest ih =>
    have hps : ∃ l, processSymbol sess today s = Except.ok l := by
      simp only [processSymbol]
      split
      · exact ⟨[], rfl⟩
      · rename_i uc _
        split
        · rename_i e hticker
          have hok := hT uc.conId
          rw [hticker] at hok
          exact Bool.noConfusion hok
        · rename_i ts hts
          split
          · exact ⟨[], rfl⟩
          · split
            · rename_i e hbulk
              have hok : (Except.error e : Except Unit (List OTicker)).isOk = true :=
                hbulk ▸ hB _
              exact Bool.noConfusion hok
            · exact ⟨_, rfl⟩
    obtain ⟨l, hl⟩ := hps
    unfold chainLoop
    rw [hl]
    cases hcl : chainLoop sess today rest with
    | error e =>
      rw [hcl] at ih
      exact ih
    | ok m => rfl

/-- Session for the C3-amended witness: connected, quote requests never
raise, every qualification attempt and every enrichment call fails. -/
def w3Session : Session :=
  { qualifyU := fun _ _ _ => .raised
    qualifyO := fun _ => .raised
    reqTicker := fun _ => .ok []
    reqTickersBulk := fun _ => .ok []
    enhanceOI := fun _ _ => .error ()
    connected := true
    oiEnabled := true }

/-- C3-amended witness: with failing qualification and enrichment but
non-raising quote requests, the pipeline still returns a result. -/
theorem chain_absorbs_sub_symbol_failures_witness :
    (get_atm_options w3Session ["SPX", "QQQ"] 0 "20250101").isOk = true :=
  chain_absorbs_sub_symbol_failures w3Session ["SPX", "QQQ"] 0 "20250101" rfl
    (fun _ => rfl) (fun _ => rfl)

/-! ### C7 -/

/-- Session for the C7 counterexample: the spot quote returns −50 (a
non-positive price); exactly one option strike qualifies, under `SPXW`. -/
def c7Session : Session :=
  { qualifyU := fun v _ _ =>
      if v = "SPX" then
        .returned [{ symbol := "SPX", exchange := "CBOE", tradingClass := "",
                     right := "", expiry := "", conId := 1, strike := 0 }]
      else .raised
    qualifyO := fun d =>
      if d.symbol = "SPXW" && d.strike = 5000 && d.right = "C" then
        .returned [{ symbol := "SPXW", exchange := d.exchange,
                     tradingClass := "SPXW", right := "C", expiry := d.expiry,
                     conId := 10, strike := 5000 }]
      else .raised
    reqTicker := fun _ => .ok [{ marketPrice := .num (-50), close := .pynone }]
    reqTickersBulk := fun cs => .ok (cs.map fun c =>
      { contract := c, bid := -1, ask := -1, impliedVolatility := .pynone,
        modelGreeks := none })
    enhanceOI := fun r _ => .ok r
    connected := true
    oiEnabled := false }

/-- C7 counterexample: with a non-positive spot quote (−50) the pipeline
signals no error at all — it substitutes the placeholder 5000
(ib_client.py:217-219) and produces a record at strike 5000 with the
placeholder recorded as the spot price, refuting the claim that an
InvalidSpotPrice error is signalled rather than a strike produced. -/
theorem invalid_spot_produces_strike :
    (get_atm_options c7Session ["SPX"] 0 "20250101").map
      (fun l => l.map fun r => (r.strike, r.underlying_price_at_fetch)) =
      Except.ok [((5000 : ℤ), (5000 : ℚ))] := by
  with_unfolding_all rfl

/-- C7 amended: when the first spot ticker's price fields are non-positive,
`nan`, `None` or absent (so no usable price), ATM strike selection does not
signal an error: the spot resolves to the documented placeholder 5000 and —
for a 5-increment symbol — the ATM strike 5000 is produced. -/
theorem invalid_spot_placeholder (t : UTicker)
    (h : ∀ q : ℚ, (t.marketPrice = PyNum.num q → q ≤ 0) ∧
      (t.close = PyNum.num q → q ≤ 0)) :
    resolveSpot [t] = 5000 ∧ resolveSpot [] = 5000 ∧
    selectAtmStrike "SPX" (resolveSpot [t]) = 5000 := by
  have h5 : resolveSpot [t] = 5000 := by
    obtain ⟨mp, cl⟩ := t
    have hmp : ∀ q : ℚ, mp = PyNum.num q → q ≤ 0 := fun q => (h q).1
    have hcl : ∀ q : ℚ, cl = PyNum.num q → q ≤ 0 := fun q => (h q).2
    cases mp with
    | num q =>
      by_cases hq : q = 0
      · subst hq
        cases cl with
        | num p =>
          by_cases hp : p = 0
          · subst hp
            simp [resolveSpot, PyNum.truthy]
          · have hple := hcl p rfl
            simp [resolveSpot, PyNum.truthy, hp, hple]
        | nan => simp [resolveSpot, PyNum.truthy]
        | pynone => simp [resolveSpot, PyNum.truthy]
      · have hqle := hmp q rfl
        simp [resolveSpot, PyNum.truthy, hq, hqle]
    | nan =>
      simp [resolveSpot, PyNum.truthy]
    | pynone =>
      cases cl with
      | num p =>
        by_cases hp : p = 0
        · subst hp
          simp [resolveSpot, PyNum.truthy]
        · have hple := hcl p rfl
          simp [resolveSpot, PyNum.truthy, hp, hple]
      | nan => simp [resolveSpot, PyNum.truthy]
      | pynone => simp [resolveSpot, PyNum.truthy]
  refine ⟨h5, rfl, ?_⟩
  rw [h5]
  with_unfolding_all rfl

/-- C7-amended witness: the placeholder behaviour at the concrete invalid
ticker whose market price is −50 and whose close is `None`. -/
theorem invalid_spot_placeholder_witness :
    resolveSpot [{ marketPrice := PyNum.num (-50), close := PyNum.pynone }] = 5000 ∧
    resolveSpot [] = 5000 ∧
    selectAtmStrike "SPX"
      (resolveSpot [{ marketPrice := PyNum.num (-50), close := PyNum.pynone }]) = 5000 :=
  invalid_spot_placeholder { marketPrice := PyNum.num (-50), close := PyNum.pynone }
    (fun q => ⟨fun hq => by injection hq with h2; rw [← h2]; norm_num,
               fun hq => by simp at hq⟩)

/-! ### C9 -/

/-- Session for the C9 counterexample: the option for strike 5000 qualifies
only under the `SPXW` alias, the one for strike 5005 only under `SPX` — the
per-contract fallback then resolves different aliases for different strikes
of the same canonical symbol in the same call. -/
def c9Session : Session :=
  { qualifyU := fun v _ _ =>
      if v = "SPX" then
        .returned [{ symbol := "SPX", exchange := "CBOE", tradingClass := "",
                     right := "", expiry := "", conId := 1, strike := 0 }]
      else .raised
    qualifyO := fun d =>
      if d.strike = 5000 && d.right = "C" && d.symbol = "SPXW" then
        .returned [{ symbol := "SPXW", exchange := d.exchange,
                     tradingClass := "SPXW", right := "C", expiry := d.expiry,
                     conId := 10, strike := 5000 }]
      else if d.strike = 5005 && d.right = "C" && d.symbol = "SPX" then
        .returned [{ symbol := "SPX", exchange := d.exchange, tradingClass := "",
                     right := "C", expiry := d.expiry, conId := 11,
                     strike := 5005 }]
      else .raised
    reqTicker := fun _ => .ok [{ marketPrice := .num 5000, close := .pynone }]
    reqTickersBulk := fun cs => .ok (cs.map fun c =>
      { contract := c, bid := -1, ask := -1, impliedVolatility := .pynone,
        modelGreeks := none })
    enhanceOI := fun r _ => .ok r
    connected := true
    oiEnabled := false }

/-- C9 counterexample: one invocation for the single canonical symbol `SPX`
produces two records with different resolved aliases (`SPXW` for strike 5000,
`SPX` for strike 5005), refuting the claim that the result never mixes
aliases for one symbol in one call. -/
theorem chain_mixes_aliases :
    (get_atm_options c9Session ["SPX"] 0 "20250101").map
      (fun l => l.map fun r => (r.symbol, r.underlying_symbol)) =
      Except.ok [("SPX", "SPXW"), ("SPX", "SPX")] := by
  with_unfolding_all rfl

theorem pairwise_eq_of_const (g : OptionRecord → String) (A : String) :
    ∀ l : List OptionRecord, (∀ r ∈ l, g r = A) →
      l.Pairwise fun r1 r2 => g r1 = g r2 := by
  intro l
  induction l with
  | nil => intro _; exact List.Pairwise.nil
  | cons a rest ih =>
    intro h
    refine List.Pairwise.cons ?_ (ih fun r hr => h r (by simp [hr]))
    intro b hb
    rw [h a (by simp), h b (by simp [hb])]

/-- C9 amended: the resolved alias is chosen per option contract (the
fallback loop runs again for every strike and right), so it is stable within
one invocation only under a uniformity condition on the session: if every
successful option qualification yields a contract of one fixed alias `A`,
bulk quote responses only echo requested contracts, and enrichment is
disabled, then all records a symbol contributes in one `processSymbol`
invocation carry the same resolved alias. -/
theorem single_alias_no_mixing (sess : Session) (expiry symbol_name A : String)
    (recs : List OptionRecord)
    (hA : ∀ d c, optionOutcome sess d = some c → c.symbol = A)
    (hB : ∀ cs ts, sess.reqTickersBulk cs = Except.ok ts → ∀ t ∈ ts, t.contract ∈ cs)
    (hoi : sess.oiEnabled = false)
    (hok : processSymbol sess expiry symbol_name = Except.ok recs) :
    recs.Pairwise fun r1 r2 => r1.underlying_symbol = r2.underlying_symbol := by
  have key : ∀ r ∈ recs, r.underlying_symbol = A := by
    simp only [processSymbol] at hok
    split at hok
    · cases hok
      intro r hr
      simp at hr
    · rename_i uc hq
      split at hok
      · injection hok
      · rename_i ts hts
        split at hok
        · cases hok
          intro r hr
          simp at hr
        · split at hok
          · injection hok
          · rename_i tickers hbulk
            injection hok with hok'
            subst hok'
            intro r hr
            simp only [applyEnrichment, hoi, Bool.false_and, Bool.false_eq_true,
              if_false] at hr
            simp only [List.mem_map] at hr
            obtain ⟨t, ht, rfl⟩ := hr
            show t.contract.symbol = A
            have hmem := hB _ _ hbulk t ht
            simp only [List.mem_flatMap, List.mem_filterMap] at hmem
            obtain ⟨k, hk, r', hr', hqual⟩ := hmem
            simp only [qualify_option_with_fallback] at hqual
            obtain ⟨d, hd, hout⟩ := runFallback_some_mem _ _ _ hqual
            exact hA d t.contract hout
  exact pairwise_eq_of_const OptionRecord.underlying_symbol A recs key

/-- Session for the C9-amended witness: every successful option
qualification returns an `SPXW` contract (strikes 5000 and 5005 succeed). -/
def w9Session : Session :=
  { qualifyU := fun v _ _ =>
      if v = "SPX" then
        .returned [{ symbol := "SPX", exchange := "CBOE", tradingClass := "",
                     right := "", expiry := "", conId := 1, strike := 0 }]
      else .raised
    qualifyO := fun d =>
      if d.symbol = "SPXW" && (d.strike = 5000 || d.strike = 5005) && d.right = "C" then
        .returned [{ symbol := "SPXW", exchange := d.exchange,
                     tradingClass := "SPXW", right := "C", expiry := d.expiry,
                     conId := 20, strike := d.strike }]
      else .raised
    reqTicker := fun _ => .ok [{ marketPrice := .num 5000, close := .pynone }]
    reqTickersBulk := fun cs => .ok (cs.map fun c =>
      { contract := c, bid := -1, ask := -1, impliedVolatility := .pynone,
        modelGreeks := none })
    enhanceOI := fun r _ => .ok r
    connected := true
    oiEnabled := false }

/-- C9-amended witness: under the single-alias session, the two records the
symbol produces carry pairwise-equal resolved aliases. -/
theorem single_alias_no_mixing_witness :
    List.Pairwise (fun r1 r2 : OptionRecord =>
        r1.underlying_symbol = r2.underlying_symbol)
      [{ symbol := "SPX", underlying_symbol := "SPXW", conId := 20,
         strike := 5000, right := "C", expiry := "20250101", bid := none,
         ask := none, implied_volatility := none, open_interest := 0,
         gamma := none, delta := none, underlying_price_at_fetch := 5000 },
       { symbol := "SPX", underlying_symbol := "SPXW", conId := 20,
         strike := 5005, right := "C", expiry := "20250101", bid := none,
         ask := none, implied_volatility := none, open_interest := 0,
         gamma := none, delta := none, underlying_price_at_fetch := 5000 }] := by
  refine single_alias_no_mixing w9Session "20250101" "SPX" "SPXW" _ ?_ ?_ rfl ?_
  · intro d c hdc
    simp only [optionOutcome, w9Session] at hdc
    split at hdc
    · simp only [qualSuccess] at hdc
      split at hdc
      · injection hdc with h2
        rw [← h2]
      · injection hdc
    · injection hdc
  · intro cs ts hcs t ht
    simp only [w9Session] at hcs
    injection hcs with h2
    subst h2
    simp only [List.mem_map] at ht
    obtain ⟨c, hc, rfl⟩ := ht
    exact hc
  · with_unfolding_all rfl

end IB
